import Mathlib

/-!
Verification development for the consumer-group leader failover core
(yellowstone-grpc-tools, scylladb/yellowstone_log/consumer_group/leader.rs).

The embedding is a shallow one: the etcd coordination store is modelled as an
association list of keys to (value, version, mod_revision, lease) entries with
a global revision counter; each etcd call the leader performs is reflected as a
pure state transformation plus a recorded effect.  External nondeterminism
(freshly minted UUIDs, granted lease ids, which side of a select wins, the
result of the non-blocking interrupt drain) is resolved by an explicit
environment value fed to each loop iteration.

Key paths (get_leader_state_log_key_v1, get_instance_lock_prefix_v1,
get_producer_lock_path_v1) live in the etcd_path module which is not part of
the sources here; following the spec they are modelled as tagged constructors
of an abstract key type, with the prefix relation of an instance-lock key
given by matching its group tag.
-/

/-- Opaque producer identifier (crate type, opaque to this core). -/
abbrev ProducerId := Nat

/-- Opaque consumer group identifier (crate type, opaque to this core). -/
abbrev ConsumerGroupId := Nat

/-- Modelled from the spec: keys of the coordination store.  The key-building
helpers get_leader_state_log_key_v1, get_instance_lock_prefix_v1 and
get_producer_lock_path_v1 live in the etcd_path module, which is missing from
the sources, so each derived path is a tagged constructor over the group or
producer id; uuid keys are minted barrier keys; raw keys stand for opaque
byte-string keys such as the leader lock key. -/
inductive EKey
  | leaderLog (g : ConsumerGroupId)
  | instanceLock (g : ConsumerGroupId) (i : Nat)
  | producerLock (p : ProducerId)
  | uuid (n : Nat)
  | raw (n : Nat)
deriving DecidableEq

/-- State machine of the consumer group leader, mirroring the Rust enum
ConsumerGroupLeaderSM field for field. -/
inductive ConsumerGroupLeaderSM
  | init
  | lostProducer (lost_producer_id : ProducerId) (execution_id : List Nat)
  | waitingBarrier (lease_id : Int) (barrier_key : EKey) (wait_for : List EKey)
  | computingProducerSelection
  | idle (producer_id : ProducerId) (execution_id : List Nat)
deriving DecidableEq

/-- Values stored in the coordination store: either opaque bytes (such as the
empty barrier marker) or a bincode-serialized leader state machine. -/
inductive Val
  | bytes (bs : List Nat)
  | state (sm : ConsumerGroupLeaderSM)
deriving DecidableEq

/-- Model of bincode serialize for the leader state machine. -/
def serializeSM (sm : ConsumerGroupLeaderSM) : Val := Val.state sm

/-- Model of bincode deserialize: only a serialized state machine parses. -/
def deserializeSM : Val → Except Unit ConsumerGroupLeaderSM
  | Val.state sm => Except.ok sm
  | Val.bytes _ => Except.error ()

/-- One key-value entry of the store: etcd metadata relevant to this core. -/
structure KV where
  value : Val
  version : Int
  modRevision : Int
  lease : Option Int
deriving DecidableEq

/-- The coordination store: a global revision counter and the key-value map
(as an association list, so prefix scans and equality are computable). -/
structure EtcdStore where
  rev : Int
  kvs : List (EKey × KV)
deriving DecidableEq

/-- Lookup of a key in the association list. -/
def kvLookup : List (EKey × KV) → EKey → Option KV
  | [], _ => none
  | (k', v) :: rest, k => if k' = k then some v else kvLookup rest k

/-- Insert or replace a key in the association list. -/
def kvPut : List (EKey × KV) → EKey → KV → List (EKey × KV)
  | [], k, v => [(k, v)]
  | (k', v') :: rest, k, v =>
      if k' = k then (k, v) :: rest else (k', v') :: kvPut rest k v

/-- Version of a key as etcd reports it in transactions: 0 when absent. -/
def keyVersion (st : EtcdStore) (k : EKey) : Int :=
  match kvLookup st.kvs k with
  | some kv => kv.version
  | none => 0

/-- Modification revision of a key as etcd reports it: 0 when absent. -/
def keyModRevision (st : EtcdStore) (k : EKey) : Int :=
  match kvLookup st.kvs k with
  | some kv => kv.modRevision
  | none => 0

/-- Execute a put: bump the global revision, set the value, bump the per-key
version (1 on creation), stamp the new mod revision, attach the lease.
Returns the new store and the revision reported in the put response header. -/
def etcdPut (st : EtcdStore) (k : EKey) (v : Val) (lease : Option Int) :
    EtcdStore × Int :=
  let r := st.rev + 1
  let ver : Int :=
    match kvLookup st.kvs k with
    | some old => old.version + 1
    | none => 1
  (⟨r, kvPut st.kvs k ⟨v, ver, r, lease⟩⟩, r)

/-- Comparison target of an etcd transaction guard. -/
inductive CmpTarget
  | version
  | modRevision
deriving DecidableEq

/-- Comparison operator of an etcd transaction guard. -/
inductive CmpOp
  | greater
  | less
  | equal
deriving DecidableEq

/-- One compare of a transaction's when-clause, as built by the source
(Compare::version / Compare::mod_revision with a CompareOp and a bound). -/
structure Cmp where
  target : CmpTarget
  key : EKey
  op : CmpOp
  rhs : Int
deriving DecidableEq

/-- Evaluate one compare against the store. -/
def evalCmp (st : EtcdStore) (c : Cmp) : Bool :=
  let actual : Int :=
    match c.target with
    | CmpTarget.version => keyVersion st c.key
    | CmpTarget.modRevision => keyModRevision st c.key
  match c.op with
  | CmpOp.greater => decide (c.rhs < actual)
  | CmpOp.less => decide (actual < c.rhs)
  | CmpOp.equal => decide (actual = c.rhs)

/-- Execute the puts of a transaction's then-branch in order, collecting the
revision reported by each put response. -/
def execPuts (st : EtcdStore) : List (EKey × Val × Option Int) → EtcdStore × List Int
  | [] => (st, [])
  | (k, v, l) :: rest =>
      let p := etcdPut st k v l
      let q := execPuts p.1 rest
      (q.1, p.2 :: q.2)

/-- Execute an etcd transaction: when every compare of the when-clause holds,
run the then-branch puts and return their response revisions; otherwise leave
the store untouched and return no op responses. -/
def txnExec (st : EtcdStore) (whens : List Cmp)
    (puts : List (EKey × Val × Option Int)) : EtcdStore × List Int :=
  if whens.all (fun c => evalCmp st c) then execPuts st puts else (st, [])

/-- Modelled from the spec: the instance-lock prefix of a group (built by the
missing get_instance_lock_prefix_v1 helper) covers exactly that group's
instance-lock keys. -/
def underInstanceLock (g : ConsumerGroupId) : EKey → Bool
  | EKey.instanceLock g' _ => g' = g
  | _ => false

/-- Keys currently stored under the group's instance-lock prefix, in store
listing order: the wait_for snapshot taken by the LostProducer arm. -/
def instanceLockKeys (st : EtcdStore) (g : ConsumerGroupId) : List EKey :=
  (st.kvs.filter fun kv => underInstanceLock g kv.1).map (fun kv => kv.1)

/-- Watch event type delivered by the store (etcd_client::EventType). -/
inductive EventTy
  | put
  | delete
deriving DecidableEq

/-- Store interactions performed by get_producer_dead_signal, in program
order: creating the watch (with the with_prefix option) and the point get of
the producer lock path. -/
inductive SigEffect
  | watchCreate (key : EKey) (withPfx : Bool)
  | getKey (key : EKey)
deriving DecidableEq

/-- How the returned dead signal behaves: resolved on the early fast path
(liveness key absent at subscribe time) or still watching the event stream. -/
inductive SignalMode
  | earlyResolved
  | watching
deriving DecidableEq

/-- Outcome of running the signal against an event stream. -/
inductive WatchOutcome
  | resolved
  | corrupted
  | pending
deriving DecidableEq

/-- Observable behaviour of a dead signal on a given event stream: how many
times the one-shot sender fired, how many watch events were consumed, and the
final outcome (corrupted stands for the panic on a put event). -/
structure WatchRun where
  sends : Nat
  consumed : Nat
  outcome : WatchOutcome
deriving DecidableEq

/-- Model of get_producer_dead_signal: establish the prefix watch over the
producer lock path, then get the path; when the get reports no key the signal
is resolved immediately, otherwise it watches the stream. -/
def get_producer_dead_signal (st : EtcdStore) (producer_id : ProducerId) :
    List SigEffect × SignalMode :=
  let producer_lock_path := EKey.producerLock producer_id
  let effects := [SigEffect.watchCreate producer_lock_path true,
                  SigEffect.getKey producer_lock_path]
  match kvLookup st.kvs producer_lock_path with
  | none => (effects, SignalMode.earlyResolved)
  | some _ => (effects, SignalMode.watching)

/-- Run a dead signal against the stream of (first) watch events.  On the fast
path the sender has already fired before any event is consumed.  Otherwise the
watcher task inspects the first event of the first message: a put event is the
fatal corruption panic, a delete event sends the one-shot signal and breaks
out of the loop; an ended stream leaves the signal pending. -/
def signalRun : SignalMode → List EventTy → WatchRun
  | SignalMode.earlyResolved, _ => ⟨1, 0, WatchOutcome.resolved⟩
  | SignalMode.watching, [] => ⟨0, 0, WatchOutcome.pending⟩
  | SignalMode.watching, EventTy.put :: _ => ⟨0, 1, WatchOutcome.corrupted⟩
  | SignalMode.watching, EventTy.delete :: _ => ⟨1, 1, WatchOutcome.resolved⟩

/-- In-memory leader runtime (ConsumerGroupLeaderNode): the fields relevant to
the model.  The cached dead-signal future is recorded by the producer id it
was subscribed for; the cached barrier handle by its barrier key. -/
structure ConsumerGroupLeaderNode where
  consumer_group_id : ConsumerGroupId
  leader_key : EKey
  state_machine : ConsumerGroupLeaderSM
  last_revision : Int
  producer_dead_signal : Option ProducerId
  barrier : Option EKey
deriving DecidableEq

/-- Errors of leader-node construction. -/
inductive NewError
  | deserializationError
  | failedToUpdateStateLog
deriving DecidableEq

/-- Model of ConsumerGroupLeaderNode::new: read the state-log key; when
present adopt its parsed state and mod revision; when absent write Init in a
transaction guarded by (leader key version greater than 0) and (log key
version equal to 0), adopting the revision of the put response, and fail with
FailedToUpdateStateLog when the transaction produced no put response. -/
def consumerGroupLeaderNodeNew (st : EtcdStore) (leader_key : EKey)
    (consumer_group_id : ConsumerGroupId) :
    EtcdStore × Except NewError ConsumerGroupLeaderNode :=
  let leader_log_key := EKey.leaderLog consumer_group_id
  match kvLookup st.kvs leader_log_key with
  | some kv =>
      match deserializeSM kv.value with
      | Except.error _ => (st, Except.error NewError.deserializationError)
      | Except.ok sm =>
          (st, Except.ok ⟨consumer_group_id, leader_key, sm, kv.modRevision,
                          none, none⟩)
  | none =>
      let p := txnExec st
        [⟨CmpTarget.version, leader_key, CmpOp.greater, 0⟩,
         ⟨CmpTarget.version, leader_log_key, CmpOp.equal, 0⟩]
        [(leader_log_key, serializeSM ConsumerGroupLeaderSM.init, none)]
      match p.2.getLast? with
      | none => (p.1, Except.error NewError.failedToUpdateStateLog)
      | some r =>
          (p.1, Except.ok ⟨consumer_group_id, leader_key,
                           ConsumerGroupLeaderSM.init, r, none, none⟩)

/-- Effects a loop iteration performs against the store and helpers, in
program order (the persistence transaction itself is not an effect; it is
reflected in the returned store and persisted revision). -/
inductive LoopEffect
  | leaseGrant (ttl : Int) (leaseId : Int)
  | scanLocks (g : ConsumerGroupId)
  | newBarrier (key : EKey) (waitFor : List EKey) (leaseId : Int)
  | getBarrier (key : EKey)
  | put (key : EKey) (value : Val) (lease : Option Int)
  | subscribeDeadSignal (p : ProducerId)
deriving DecidableEq

/-- How a loop iteration ends: return Ok(()), return an error
(FailedToUpdateStateLog propagated), continue looping, or hit the
unimplemented ComputingProducerSelection arm (todo panic). -/
inductive StepResult
  | exitOk
  | exitErr
  | continueLoop
  | panicTodo
deriving DecidableEq

/-- Who wins a select racing the interrupt receiver against a primary future:
the interrupt completes because a signal was sent, the interrupt completes
because the sender was dropped (closed channel), or the primary future. -/
inductive RaceWinner
  | signaled
  | closed
  | primary
deriving DecidableEq

/-- Result of the non-blocking try_recv drain at the end of an iteration. -/
inductive DrainResult
  | received
  | empty
  | closed
deriving DecidableEq

/-- Environment resolving the external nondeterminism of one loop iteration:
the minted uuid, the granted lease id, the select outcomes, and the drain. -/
structure LoopEnv where
  freshUuid : Nat
  leaseId : Int
  barrierRace : RaceWinner
  idleRace : RaceWinner
  drain : DrainResult
deriving DecidableEq

/-- Everything one loop iteration produces: the updated runtime, the updated
store, the recorded effects, the computed next state (none when the arm
returned before computing one), the revision of the persistence write (none
when the transaction guard failed or no transaction ran), and the result. -/
structure StepOut where
  node : ConsumerGroupLeaderNode
  store : EtcdStore
  effects : List LoopEffect
  next_state : Option ConsumerGroupLeaderSM
  persisted_rev : Option Int
  result : StepResult
deriving DecidableEq

/-- The persistence transaction of the loop, exactly as the source builds it:
guarded by (leader key version greater than 0) and (log key mod revision less
than last_revision), putting the serialized next state; the returned revision
is the popped put response header revision. -/
def persistNextState (st : EtcdStore) (leader_key leader_log_key : EKey)
    (last_revision : Int) (next_state : ConsumerGroupLeaderSM) :
    EtcdStore × Option Int :=
  let p := txnExec st
    [⟨CmpTarget.version, leader_key, CmpOp.greater, 0⟩,
     ⟨CmpTarget.modRevision, leader_log_key, CmpOp.less, last_revision⟩]
    [(leader_log_key, serializeSM next_state, none)]
  (p.1, p.2.getLast?)

/-- Tail of a loop iteration after a next state was computed: run the
persistence transaction; absence of a put response propagates
FailedToUpdateStateLog out of the loop; on success adopt the revision and the
next state, then drain the interrupt receiver without blocking. -/
def persistPhase (node : ConsumerGroupLeaderNode) (st : EtcdStore)
    (env : LoopEnv) (effects : List LoopEffect)
    (next_state : ConsumerGroupLeaderSM) : StepOut :=
  let leader_log_key := EKey.leaderLog node.consumer_group_id
  let p := persistNextState st node.leader_key leader_log_key
    node.last_revision next_state
  match p.2 with
  | none => ⟨node, p.1, effects, some next_state, none, StepResult.exitErr⟩
  | some r =>
      let node' := { node with last_revision := r, state_machine := next_state }
      match env.drain with
      | DrainResult.received =>
          ⟨node', p.1, effects, some next_state, some r, StepResult.exitOk⟩
      | DrainResult.empty =>
          ⟨node', p.1, effects, some next_state, some r, StepResult.continueLoop⟩
      | DrainResult.closed =>
          ⟨node', p.1, effects, some next_state, some r, StepResult.exitOk⟩

/-- One iteration of ConsumerGroupLeaderNode::leader_loop, arm by arm. -/
def leaderLoopStep (node : ConsumerGroupLeaderNode) (st : EtcdStore)
    (env : LoopEnv) : StepOut :=
  match node.state_machine with
  | ConsumerGroupLeaderSM.init =>
      persistPhase node st env [] ConsumerGroupLeaderSM.computingProducerSelection
  | ConsumerGroupLeaderSM.lostProducer _ _ =>
      let barrier_key := EKey.uuid env.freshUuid
      let lease_id := env.leaseId
      let wait_for := instanceLockKeys st node.consumer_group_id
      let effects := [LoopEffect.leaseGrant 10 lease_id,
                      LoopEffect.scanLocks node.consumer_group_id,
                      LoopEffect.newBarrier barrier_key wait_for lease_id]
      let node := { node with barrier := some barrier_key }
      persistPhase node st env effects
        (ConsumerGroupLeaderSM.waitingBarrier lease_id barrier_key wait_for)
  | ConsumerGroupLeaderSM.waitingBarrier _ barrier_key _ =>
      let q : List LoopEffect × ConsumerGroupLeaderNode :=
        match node.barrier with
        | some _ => ([], { node with barrier := none })
        | none => ([LoopEffect.getBarrier barrier_key], node)
      match env.barrierRace with
      | RaceWinner.signaled => ⟨q.2, st, q.1, none, none, StepResult.exitOk⟩
      | RaceWinner.closed => ⟨q.2, st, q.1, none, none, StepResult.exitOk⟩
      | RaceWinner.primary =>
          persistPhase q.2 st env q.1 ConsumerGroupLeaderSM.computingProducerSelection
  | ConsumerGroupLeaderSM.computingProducerSelection =>
      ⟨node, st, [], none, none, StepResult.panicTodo⟩
  | ConsumerGroupLeaderSM.idle producer_id execution_id =>
      let q : List LoopEffect × ConsumerGroupLeaderNode :=
        match node.producer_dead_signal with
        | some _ => ([], node)
        | none => ([LoopEffect.subscribeDeadSignal producer_id],
                   { node with producer_dead_signal := some producer_id })
      match env.idleRace with
      | RaceWinner.signaled => ⟨q.2, st, q.1, none, none, StepResult.exitOk⟩
      | RaceWinner.closed => ⟨q.2, st, q.1, none, none, StepResult.exitOk⟩
      | RaceWinner.primary =>
          let barrier_key := EKey.uuid env.freshUuid
          let lease_id := env.leaseId
          let m := etcdPut st barrier_key (Val.bytes []) (some lease_id)
          let effects := q.1 ++
            [LoopEffect.leaseGrant 10 lease_id,
             LoopEffect.put barrier_key (Val.bytes []) (some lease_id)]
          persistPhase q.2 m.1 env effects
            (ConsumerGroupLeaderSM.lostProducer producer_id execution_id)

/-- Revisions adopted at each successful persistence write along a run of the
loop, feeding one environment per iteration and stopping when an iteration
does not continue. -/
def runLoop (node : ConsumerGroupLeaderNode) (st : EtcdStore) :
    List LoopEnv → List Int
  | [] => []
  | env :: rest =>
      let out := leaderLoopStep node st env
      let tail :=
        if out.result = StepResult.continueLoop then runLoop out.node out.store rest
        else []
      match out.persisted_rev with
      | some r => r :: tail
      | none => tail

theorem kvLookup_kvPut (kvs : List (EKey × KV)) (k : EKey) (v : KV) (k' : EKey) :
    kvLookup (kvPut kvs k v) k' = if k = k' then some v else kvLookup kvs k' := by
  induction kvs with
  | nil => simp [kvPut, kvLookup]
  | cons hd tl ih =>
      obtain ⟨k₀, v₀⟩ := hd
      by_cases h₀ : k₀ = k
      · subst h₀
        simp only [kvPut, if_pos rfl, kvLookup]
        by_cases h₁ : k₀ = k' <;> simp [h₁]
      · simp only [kvPut, if_neg h₀, kvLookup]
        by_cases h₁ : k₀ = k'
        · subst h₁
          have h₂ : ¬k = k₀ := fun hh => h₀ hh.symm
          simp [kvLookup, if_neg h₂]
        · simp [if_neg h₁, ih]

theorem persistNextState_guard_iff (st : EtcdStore) (lk logk : EKey)
    (lr : Int) (ns : ConsumerGroupLeaderSM) :
    (persistNextState st lk logk lr ns).2 ≠ none ↔
      0 < keyVersion st lk ∧ keyModRevision st logk < lr := by
  unfold persistNextState txnExec
  by_cases h : 0 < keyVersion st lk ∧ keyModRevision st logk < lr
  · simp [List.all, evalCmp, h.1, h.2, execPuts]
  · rw [Decidable.not_and_iff_or_not] at h
    rcases h with h | h <;> simp [List.all, evalCmp, h]

theorem persistNextState_none (st : EtcdStore) (lk logk : EKey)
    (lr : Int) (ns : ConsumerGroupLeaderSM)
    (h : (persistNextState st lk logk lr ns).2 = none) :
    (persistNextState st lk logk lr ns).1 = st := by
  unfold persistNextState txnExec at h ⊢
  by_cases hc : ([(⟨CmpTarget.version, lk, CmpOp.greater, 0⟩ : Cmp),
      ⟨CmpTarget.modRevision, logk, CmpOp.less, lr⟩].all fun c => evalCmp st c) = true
  · simp only [if_pos hc, execPuts] at h
    simp at h
  · simp only [if_neg hc]

theorem persistNextState_some (st : EtcdStore) (lk logk : EKey)
    (lr : Int) (ns : ConsumerGroupLeaderSM) (r : Int)
    (h : (persistNextState st lk logk lr ns).2 = some r) :
    r = st.rev + 1 ∧
      (persistNextState st lk logk lr ns).1 =
        (etcdPut st logk (serializeSM ns) none).1 := by
  unfold persistNextState txnExec at h ⊢
  by_cases hc : ([(⟨CmpTarget.version, lk, CmpOp.greater, 0⟩ : Cmp),
      ⟨CmpTarget.modRevision, logk, CmpOp.less, lr⟩].all fun c => evalCmp st c) = true
  · simp only [if_pos hc, execPuts, etcdPut] at h ⊢
    simp at h
    exact ⟨h.symm, trivial⟩
  · simp only [if_neg hc] at h
    simp at h

theorem persistPhase_basic (node : ConsumerGroupLeaderNode) (st : EtcdStore)
    (env : LoopEnv) (effs : List LoopEffect) (ns : ConsumerGroupLeaderSM) :
    (persistPhase node st env effs ns).effects = effs ∧
    (persistPhase node st env effs ns).next_state = some ns ∧
    (persistPhase node st env effs ns).node.producer_dead_signal =
      node.producer_dead_signal ∧
    (persistPhase node st env effs ns).node.barrier = node.barrier ∧
    (persistPhase node st env effs ns).node.consumer_group_id =
      node.consumer_group_id ∧
    (persistPhase node st env effs ns).node.leader_key = node.leader_key := by
  simp only [persistPhase]
  cases hp : (persistNextState st node.leader_key
      (EKey.leaderLog node.consumer_group_id) node.last_revision ns).2 with
  | none => simp [hp]
  | some r => cases hd : env.drain <;> simp [hp, hd]

theorem persistPhase_none (node : ConsumerGroupLeaderNode) (st : EtcdStore)
    (env : LoopEnv) (effs : List LoopEffect) (ns : ConsumerGroupLeaderSM)
    (h : (persistPhase node st env effs ns).persisted_rev = none) :
    (persistPhase node st env effs ns).result = StepResult.exitErr ∧
    (persistPhase node st env effs ns).store = st ∧
    (persistPhase node st env effs ns).node = node := by
  simp only [persistPhase] at h ⊢
  cases hp : (persistNextState st node.leader_key
      (EKey.leaderLog node.consumer_group_id) node.last_revision ns).2 with
  | none =>
      simp only [hp] at h ⊢
      simp [persistNextState_none _ _ _ _ _ hp]
  | some r =>
      simp only [hp] at h
      cases hd : env.drain <;> simp [hd] at h

theorem persistPhase_some (node : ConsumerGroupLeaderNode) (st : EtcdStore)
    (env : LoopEnv) (effs : List LoopEffect) (ns : ConsumerGroupLeaderSM)
    (r : Int) (h : (persistPhase node st env effs ns).persisted_rev = some r) :
    r = st.rev + 1 ∧
    (persistPhase node st env effs ns).node.last_revision = r ∧
    (persistPhase node st env effs ns).node.state_machine = ns ∧
    (persistPhase node st env effs ns).store =
      (etcdPut st (EKey.leaderLog node.consumer_group_id) (serializeSM ns) none).1 ∧
    ((persistPhase node st env effs ns).result = StepResult.continueLoop ↔
      env.drain = DrainResult.empty) ∧
    (env.drain ≠ DrainResult.empty →
      (persistPhase node st env effs ns).result = StepResult.exitOk) := by
  simp only [persistPhase] at h ⊢
  cases hp : (persistNextState st node.leader_key
      (EKey.leaderLog node.consumer_group_id) node.last_revision ns).2 with
  | none => simp [hp] at h
  | some r' =>
      obtain ⟨hr', hst⟩ := persistNextState_some _ _ _ _ _ _ hp
      simp only [hp] at h ⊢
      cases hd : env.drain <;> simp only [hd] at h ⊢ <;> simp at h <;> subst h <;>
        simp [hr', hst]

theorem etcdPut_rev (st : EtcdStore) (k : EKey) (v : Val) (l : Option Int) :
    (etcdPut st k v l).1.rev = st.rev + 1 := rfl

theorem leaderLoopStep_rev (node : ConsumerGroupLeaderNode) (st : EtcdStore)
    (env : LoopEnv) (r : Int)
    (h : (leaderLoopStep node st env).persisted_rev = some r) :
    st.rev < r ∧ (leaderLoopStep node st env).node.last_revision = r ∧
      (leaderLoopStep node st env).store.rev = r := by
  cases hsm : node.state_machine with
  | init =>
      simp only [leaderLoopStep, hsm] at h ⊢
      obtain ⟨h1, h2, _, h4, _, _⟩ := persistPhase_some _ _ _ _ _ _ h
      exact ⟨by omega, h2, by rw [h4, etcdPut_rev]; omega⟩
  | lostProducer lp ex =>
      simp only [leaderLoopStep, hsm] at h ⊢
      obtain ⟨h1, h2, _, h4, _, _⟩ := persistPhase_some _ _ _ _ _ _ h
      exact ⟨by omega, h2, by rw [h4, etcdPut_rev]; omega⟩
  | waitingBarrier lid bk wf =>
      cases hb : node.barrier <;> cases hr : env.barrierRace <;>
        simp only [leaderLoopStep, hsm, hb, hr] at h ⊢ <;>
        first
          | exact Option.noConfusion h
          | (obtain ⟨h1, h2, _, h4, _, _⟩ := persistPhase_some _ _ _ _ _ _ h
             exact ⟨by omega, h2, by rw [h4, etcdPut_rev]; omega⟩)
  | computingProducerSelection =>
      simp only [leaderLoopStep, hsm] at h ⊢
      exact Option.noConfusion h
  | idle p ex =>
      cases hds : node.producer_dead_signal <;> cases hr : env.idleRace <;>
        simp only [leaderLoopStep, hsm, hds, hr] at h ⊢ <;>
        first
          | exact Option.noConfusion h
          | (obtain ⟨h1, h2, _, h4, _, _⟩ := persistPhase_some _ _ _ _ _ _ h
             rw [etcdPut_rev] at h1
             exact ⟨by omega, h2, by rw [h4, etcdPut_rev, etcdPut_rev]; omega⟩)

theorem leaderLoopStep_continue (node : ConsumerGroupLeaderNode)
    (st : EtcdStore) (env : LoopEnv)
    (h : (leaderLoopStep node st env).result = StepResult.continueLoop) :
    (leaderLoopStep node st env).persisted_rev ≠ none := by
  intro hn
  cases hsm : node.state_machine with
  | init =>
      simp only [leaderLoopStep, hsm] at h hn
      exact StepResult.noConfusion ((persistPhase_none _ _ _ _ _ hn).1.symm.trans h)
  | lostProducer lp ex =>
      simp only [leaderLoopStep, hsm] at h hn
      exact StepResult.noConfusion ((persistPhase_none _ _ _ _ _ hn).1.symm.trans h)
  | waitingBarrier lid bk wf =>
      cases hb : node.barrier <;> cases hr : env.barrierRace <;>
        simp only [leaderLoopStep, hsm, hb, hr] at h hn <;>
        first
          | exact StepResult.noConfusion h
          | exact StepResult.noConfusion ((persistPhase_none _ _ _ _ _ hn).1.symm.trans h)
  | computingProducerSelection =>
      simp only [leaderLoopStep, hsm] at h
      exact StepResult.noConfusion h
  | idle p ex =>
      cases hds : node.producer_dead_signal <;> cases hr : env.idleRace <;>
        simp only [leaderLoopStep, hsm, hds, hr] at h hn <;>
        first
          | exact StepResult.noConfusion h
          | exact StepResult.noConfusion ((persistPhase_none _ _ _ _ _ hn).1.symm.trans h)

theorem leaderLoopStep_sig (node : ConsumerGroupLeaderNode) (st : EtcdStore)
    (env : LoopEnv) (p : ProducerId)
    (h : node.producer_dead_signal = some p) :
    (leaderLoopStep node st env).node.producer_dead_signal = some p := by
  cases hsm : node.state_machine with
  | init =>
      simp only [leaderLoopStep, hsm]
      exact (persistPhase_basic _ _ _ _ _).2.2.1.trans h
  | lostProducer lp ex =>
      simp only [leaderLoopStep, hsm]
      exact (persistPhase_basic _ _ _ _ _).2.2.1.trans h
  | waitingBarrier lid bk wf =>
      cases hb : node.barrier <;> cases hr : env.barrierRace <;>
        simp only [leaderLoopStep, hsm, hb, hr] <;>
        first
          | exact h
          | exact (persistPhase_basic _ _ _ _ _).2.2.1.trans h
  | computingProducerSelection =>
      simp only [leaderLoopStep, hsm]
      exact h
  | idle q ex =>
      cases hds : node.producer_dead_signal with
      | none => exact absurd (hds.symm.trans h) (by simp)
      | some p' =>
          have hp' : p' = p := by
            have := hds.symm.trans h
            simpa using this
          subst hp'
          cases hr : env.idleRace <;>
            simp only [leaderLoopStep, hsm, hds, hr] <;>
            first
              | exact hds
              | exact (persistPhase_basic _ _ _ _ _).2.2.1.trans hds

theorem leaderLoopStep_drain (node : ConsumerGroupLeaderNode) (st : EtcdStore)
    (env : LoopEnv) (r : Int) (hd : env.drain ≠ DrainResult.empty)
    (h : (leaderLoopStep node st env).persisted_rev = some r) :
    (leaderLoopStep node st env).result = StepResult.exitOk := by
  cases hsm : node.state_machine with
  | init =>
      simp only [leaderLoopStep, hsm] at h ⊢
      exact (persistPhase_some _ _ _ _ _ _ h).2.2.2.2.2 hd
  | lostProducer lp ex =>
      simp only [leaderLoopStep, hsm] at h ⊢
      exact (persistPhase_some _ _ _ _ _ _ h).2.2.2.2.2 hd
  | waitingBarrier lid bk wf =>
      cases hb : node.barrier <;> cases hr : env.barrierRace <;>
        simp only [leaderLoopStep, hsm, hb, hr] at h ⊢ <;>
        first
          | exact Option.noConfusion h
          | exact (persistPhase_some _ _ _ _ _ _ h).2.2.2.2.2 hd
  | computingProducerSelection =>
      simp only [leaderLoopStep, hsm] at h
      exact Option.noConfusion h
  | idle p ex =>
      cases hds : node.producer_dead_signal <;> cases hr : env.idleRace <;>
        simp only [leaderLoopStep, hsm, hds, hr] at h ⊢ <;>
        first
          | exact Option.noConfusion h
          | exact (persistPhase_some _ _ _ _ _ _ h).2.2.2.2.2 hd

theorem runLoop_chain (envs : List LoopEnv) :
    ∀ (node : ConsumerGroupLeaderNode) (st : EtcdStore),
      node.last_revision ≤ st.rev →
      List.Chain (fun a b : Int => a < b) node.last_revision
        (runLoop node st envs) := by
  induction envs with
  | nil =>
      intro node st _
      simp only [runLoop]
      exact List.Chain.nil
  | cons env rest ih =>
      intro node st hinv
      simp only [runLoop]
      cases hpr : (leaderLoopStep node st env).persisted_rev with
      | none =>
          have hres : (leaderLoopStep node st env).result ≠
              StepResult.continueLoop := fun hc =>
            leaderLoopStep_continue node st env hc hpr
          rw [if_neg hres]
          exact List.Chain.nil
      | some r =>
          obtain ⟨h1, h2, h3⟩ := leaderLoopStep_rev node st env r hpr
          by_cases hres :
              (leaderLoopStep node st env).result = StepResult.continueLoop
          · rw [if_pos hres]
            refine List.Chain.cons (by omega) ?_
            have hnext := ih (leaderLoopStep node st env).node
              (leaderLoopStep node st env).store (le_of_eq (h2.trans h3.symm))
            rwa [h2] at hnext
          · rw [if_neg hres]
            exact List.Chain.cons (by omega) List.Chain.nil

/-- Sample store used by concrete witnesses: the leader lock key is held
(version 1) and the state-log key of group 0 holds Init at mod revision 1. -/
def sampleStore : EtcdStore :=
  ⟨2, [(EKey.raw 0, ⟨Val.bytes [], 1, 1, none⟩),
       (EKey.leaderLog 0, ⟨Val.state ConsumerGroupLeaderSM.init, 1, 1, none⟩)]⟩

/-- Sample runtime in the Init state with last_revision 2. -/
def sampleNode : ConsumerGroupLeaderNode :=
  ⟨0, EKey.raw 0, ConsumerGroupLeaderSM.init, 2, none, none⟩

/-- Sample environment: primary futures win the selects, drain sees Empty. -/
def sampleEnv : LoopEnv :=
  ⟨7, 42, RaceWinner.primary, RaceWinner.primary, DrainResult.empty⟩

/-- Claim C1, as frozen, is false on the code: the counterexample is an Init
iteration over sampleStore, where the persistence transaction executes its
write branch although the state-log key's modification revision (1) is not
equal to last_revision (2) — the source guards with CompareOp::Less, not
equality. -/
theorem c1_counterexample :
    (leaderLoopStep sampleNode sampleStore sampleEnv).persisted_rev.isSome =
      true ∧
    keyModRevision sampleStore
        (EKey.leaderLog sampleNode.consumer_group_id) ≠
      sampleNode.last_revision := by
  decide

/-- Claim C1 (amended): the persistence transaction run for a computed
next_state executes its write branch exactly when the leader lock key's
version is greater than zero and the state-log key's modification revision is
strictly less than last_revision (the comparator in the source is Less, not
Equal); when the guard fails the store is left unchanged. -/
theorem c1_cas_write_guard (st : EtcdStore) (lk logk : EKey) (lr : Int)
    (ns : ConsumerGroupLeaderSM) :
    ((persistNextState st lk logk lr ns).2 ≠ none ↔
      0 < keyVersion st lk ∧ keyModRevision st logk < lr) ∧
    ((persistNextState st lk logk lr ns).2 = none →
      (persistNextState st lk logk lr ns).1 = st) :=
  ⟨persistNextState_guard_iff st lk logk lr ns,
   persistNextState_none st lk logk lr ns⟩

/-- Witness for C1's amended theorem at a concrete input: over a store where
the leader lock key is unheld the write branch does not execute and the store
is unchanged. -/
theorem c1_witness :
    (persistNextState ⟨2, []⟩ (EKey.raw 0) (EKey.leaderLog 0) 5
        ConsumerGroupLeaderSM.init).2 = none ∧
    (persistNextState ⟨2, []⟩ (EKey.raw 0) (EKey.leaderLog 0) 5
        ConsumerGroupLeaderSM.init).1 = ⟨2, []⟩ :=
  ⟨by decide,
   (c1_cas_write_guard ⟨2, []⟩ (EKey.raw 0) (EKey.leaderLog 0) 5
      ConsumerGroupLeaderSM.init).2 (by decide)⟩

/-- Claim C2: along every run of the leader loop, starting from a runtime
whose last_revision is bounded by the store's current revision (as bootstrap
guarantees), the revisions adopted at successful persistence writes form a
strictly increasing chain above the initial last_revision; and after each
successful persist the runtime's last_revision equals the write revision the
store reported for that put. -/
theorem c2_last_revision_monotone (node : ConsumerGroupLeaderNode)
    (st : EtcdStore) (h : node.last_revision ≤ st.rev) :
    (∀ envs : List LoopEnv,
      List.Chain (fun a b : Int => a < b) node.last_revision
        (runLoop node st envs)) ∧
    (∀ (env : LoopEnv) (r : Int),
      (leaderLoopStep node st env).persisted_rev = some r →
        (leaderLoopStep node st env).node.last_revision = r ∧
        node.last_revision < r) :=
  ⟨fun envs => runLoop_chain envs node st h,
   fun env r hr =>
     ⟨(leaderLoopStep_rev node st env r hr).2.1,
      lt_of_le_of_lt h (leaderLoopStep_rev node st env r hr).1⟩⟩

/-- Witness for C2 at a concrete two-iteration run: the adopted revisions of
the run are strictly increasing above the initial last_revision 2. -/
theorem c2_witness :
    sampleNode.last_revision ≤ sampleStore.rev ∧
    List.Chain (fun a b : Int => a < b) sampleNode.last_revision
      (runLoop sampleNode sampleStore [sampleEnv, sampleEnv]) :=
  ⟨by decide,
   (c2_last_revision_monotone sampleNode sampleStore (by decide)).1
     [sampleEnv, sampleEnv]⟩

/-- Claim C3: when the state-log key of the group is absent, construction
writes Init under exactly the two transaction conditions — leader lock key
version greater than zero and log key version equal to zero (the latter holds
automatically for an absent key) — adopting the write's reported revision as
last_revision on success, and failing with FailedToUpdateStateLog when the
transaction yields no put response, leaving the store unchanged. -/
theorem c3_bootstrap_absent_log (st : EtcdStore) (lk : EKey)
    (g : ConsumerGroupId)
    (habs : kvLookup st.kvs (EKey.leaderLog g) = none) :
    keyVersion st (EKey.leaderLog g) = 0 ∧
    ((0 < keyVersion st lk ∧ keyVersion st (EKey.leaderLog g) = 0) →
      (consumerGroupLeaderNodeNew st lk g).2 =
        Except.ok ⟨g, lk, ConsumerGroupLeaderSM.init, st.rev + 1, none, none⟩ ∧
      kvLookup (consumerGroupLeaderNodeNew st lk g).1.kvs (EKey.leaderLog g) =
        some ⟨serializeSM ConsumerGroupLeaderSM.init, 1, st.rev + 1, none⟩) ∧
    (¬ 0 < keyVersion st lk →
      (consumerGroupLeaderNodeNew st lk g).2 =
        Except.error NewError.failedToUpdateStateLog ∧
      (consumerGroupLeaderNodeNew st lk g).1 = st) := by
  have hver : keyVersion st (EKey.leaderLog g) = 0 := by
    simp [keyVersion, habs]
  refine ⟨hver, ?_, ?_⟩
  · rintro ⟨hv, -⟩
    have hcond : (([⟨CmpTarget.version, lk, CmpOp.greater, 0⟩,
        ⟨CmpTarget.version, EKey.leaderLog g, CmpOp.equal, 0⟩] : List Cmp).all
          fun c => evalCmp st c) = true := by
      simp [List.all, evalCmp, hv, hver]
    simp only [consumerGroupLeaderNodeNew, habs, txnExec, if_pos hcond,
      execPuts, etcdPut, habs]
    constructor
    · simp
    · simp [kvLookup_kvPut, habs, serializeSM]
  · intro hv
    have hcond : (([⟨CmpTarget.version, lk, CmpOp.greater, 0⟩,
        ⟨CmpTarget.version, EKey.leaderLog g, CmpOp.equal, 0⟩] : List Cmp).all
          fun c => evalCmp st c) = false := by
      simp [List.all, evalCmp, hv]
    simp [consumerGroupLeaderNodeNew, habs, txnExec, hcond]

/-- Fresh-group store for the bootstrap witness: the leader lock key is held,
no state-log key exists for group 3. -/
def freshStore : EtcdStore := ⟨5, [(EKey.raw 0, ⟨Val.bytes [], 2, 3, none⟩)]⟩

/-- Witness for C3 at a concrete fresh group: construction writes Init at
revision 6 and adopts it. -/
theorem c3_witness :
    kvLookup freshStore.kvs (EKey.leaderLog 3) = none ∧
    (0 < keyVersion freshStore (EKey.raw 0) ∧
      keyVersion freshStore (EKey.leaderLog 3) = 0) ∧
    ((consumerGroupLeaderNodeNew freshStore (EKey.raw 0) 3).2 =
      Except.ok ⟨3, EKey.raw 0, ConsumerGroupLeaderSM.init, 6, none, none⟩ ∧
    kvLookup (consumerGroupLeaderNodeNew freshStore (EKey.raw 0) 3).1.kvs
        (EKey.leaderLog 3) =
      some ⟨serializeSM ConsumerGroupLeaderSM.init, 1, 6, none⟩) :=
  ⟨by decide, by decide,
   (c3_bootstrap_absent_log freshStore (EKey.raw 0) 3 (by decide)).2.1
     (by decide)⟩

/-- Claim C4: when the interrupt signal wins the WaitingBarrier select before
the barrier resolves, the iteration returns Ok(()) and writes nothing to the
store, so any persisted state-log entry — in particular the last persisted
WaitingBarrier value — is unchanged. -/
theorem c4_interrupt_waiting_barrier (node : ConsumerGroupLeaderNode)
    (st : EtcdStore) (env : LoopEnv) (lid : Int) (bk : EKey)
    (wf : List EKey)
    (hsm : node.state_machine = ConsumerGroupLeaderSM.waitingBarrier lid bk wf)
    (hrace : env.barrierRace = RaceWinner.signaled) :
    (leaderLoopStep node st env).result = StepResult.exitOk ∧
    (leaderLoopStep node st env).store = st ∧
    (leaderLoopStep node st env).persisted_rev = none ∧
    ∀ v, kvLookup st.kvs (EKey.leaderLog node.consumer_group_id) = some v →
      kvLookup (leaderLoopStep node st env).store.kvs
        (EKey.leaderLog node.consumer_group_id) = some v := by
  cases hb : node.barrier <;> simp [leaderLoopStep, hsm, hb, hrace]

/-- Runtime waiting on a barrier, with the barrier handle cached, for the C4
and C10 witnesses; the persisted log entry holds the same WaitingBarrier. -/
def waitingNode : ConsumerGroupLeaderNode :=
  ⟨0, EKey.raw 0,
   ConsumerGroupLeaderSM.waitingBarrier 42 (EKey.uuid 7) [EKey.instanceLock 0 1],
   2, none, some (EKey.uuid 7)⟩

/-- Store whose state-log entry for group 0 is the WaitingBarrier value the
waiting runtime carries. -/
def waitingStore : EtcdStore :=
  ⟨2, [(EKey.raw 0, ⟨Val.bytes [], 1, 1, none⟩),
       (EKey.leaderLog 0,
        ⟨Val.state (ConsumerGroupLeaderSM.waitingBarrier 42 (EKey.uuid 7)
           [EKey.instanceLock 0 1]), 1, 2, none⟩)]⟩

/-- Environment where the interrupt signal wins both selects. -/
def interruptEnv : LoopEnv :=
  ⟨9, 43, RaceWinner.signaled, RaceWinner.signaled, DrainResult.empty⟩

/-- Witness for C4: interrupting the concrete waiting runtime exits Ok with
the store untouched and the persisted WaitingBarrier entry intact. -/
theorem c4_witness :
    (leaderLoopStep waitingNode waitingStore interruptEnv).result =
      StepResult.exitOk ∧
    (leaderLoopStep waitingNode waitingStore interruptEnv).store =
      waitingStore ∧
    (leaderLoopStep waitingNode waitingStore interruptEnv).persisted_rev =
      none ∧
    kvLookup (leaderLoopStep waitingNode waitingStore interruptEnv).store.kvs
        (EKey.leaderLog waitingNode.consumer_group_id) =
      some ⟨Val.state (ConsumerGroupLeaderSM.waitingBarrier 42 (EKey.uuid 7)
         [EKey.instanceLock 0 1]), 1, 2, none⟩ := by
  obtain ⟨h1, h2, h3, h4⟩ := c4_interrupt_waiting_barrier waitingNode
    waitingStore interruptEnv 42 (EKey.uuid 7) [EKey.instanceLock 0 1]
    (by decide) (by decide)
  exact ⟨h1, h2, h3, h4 _ (by decide)⟩

/-- Runtime in the Idle state for producer 5 with a cached dead-signal future
created for producer 5. -/
def idleNode : ConsumerGroupLeaderNode :=
  ⟨0, EKey.raw 0, ConsumerGroupLeaderSM.idle 5 [9], 2, some 5, none⟩

/-- Claim C5, as frozen, is false on the code: at a concrete Idle iteration
whose dead signal fires, the state machine transitions to LostProducer yet the
runtime still holds the cached dead-signal future created for the previous
producer — the source never clears producer_dead_signal. -/
theorem c5_counterexample :
    (leaderLoopStep idleNode sampleStore sampleEnv).node.state_machine =
      ConsumerGroupLeaderSM.lostProducer 5 [9] ∧
    (leaderLoopStep idleNode sampleStore sampleEnv).node.producer_dead_signal =
      some 5 := by
  decide

/-- Claim C5 (amended): the cached barrier handle is indeed cleared whenever
the WaitingBarrier arm runs (it is taken before the select), but the cached
dead-signal future is never cleared: once set it survives every iteration, and
in particular after an Idle iteration whose dead signal fires and computes
LostProducer, the runtime still holds a cached dead-signal future. -/
theorem c5_cache_discipline (node : ConsumerGroupLeaderNode) (st : EtcdStore)
    (env : LoopEnv) :
    (∀ p, node.producer_dead_signal = some p →
      (leaderLoopStep node st env).node.producer_dead_signal = some p) ∧
    (∀ lid bk wf,
      node.state_machine = ConsumerGroupLeaderSM.waitingBarrier lid bk wf →
      (leaderLoopStep node st env).node.barrier = none) ∧
    (∀ p ex, node.state_machine = ConsumerGroupLeaderSM.idle p ex →
      env.idleRace = RaceWinner.primary →
      (leaderLoopStep node st env).next_state =
        some (ConsumerGroupLeaderSM.lostProducer p ex) ∧
      (leaderLoopStep node st env).node.producer_dead_signal ≠ none) := by
  refine ⟨fun p h => leaderLoopStep_sig node st env p h, ?_, ?_⟩
  · intro lid bk wf hsm
    cases hb : node.barrier <;> cases hr : env.barrierRace <;>
      simp only [leaderLoopStep, hsm, hb, hr] <;>
      first
        | exact hb
        | rfl
        | exact (persistPhase_basic _ _ _ _ _).2.2.2.1.trans hb
        | exact (persistPhase_basic _ _ _ _ _).2.2.2.1
  · intro p ex hsm hrace
    cases hds : node.producer_dead_signal <;>
      simp only [leaderLoopStep, hsm, hds, hrace] <;>
      refine ⟨(persistPhase_basic _ _ _ _ _).2.1, ?_⟩ <;>
      rw [(persistPhase_basic _ _ _ _ _).2.2.1] <;> simp [hds]

/-- Witness for C5's amended theorem at concrete inputs: the cached signal of
the Idle runtime survives its iteration, the waiting runtime's barrier cache
is cleared, and the Idle iteration computing LostProducer keeps a cached
signal. -/
theorem c5_witness :
    ((leaderLoopStep idleNode sampleStore sampleEnv).node.producer_dead_signal =
      some 5) ∧
    ((leaderLoopStep waitingNode waitingStore sampleEnv).node.barrier = none) ∧
    ((leaderLoopStep idleNode sampleStore sampleEnv).next_state =
        some (ConsumerGroupLeaderSM.lostProducer 5 [9]) ∧
      (leaderLoopStep idleNode sampleStore sampleEnv).node.producer_dead_signal ≠
        none) :=
  ⟨(c5_cache_discipline idleNode sampleStore sampleEnv).1 5 (by decide),
   (c5_cache_discipline waitingNode waitingStore sampleEnv).2.1 42
     (EKey.uuid 7) [EKey.instanceLock 0 1] (by decide),
   (c5_cache_discipline idleNode sampleStore sampleEnv).2.2 5 [9] (by decide)
     (by decide)⟩

theorem persistPhase_store_other (node : ConsumerGroupLeaderNode)
    (st : EtcdStore) (env : LoopEnv) (effs : List LoopEffect)
    (ns : ConsumerGroupLeaderSM) (k : EKey)
    (hk : ¬ EKey.leaderLog node.consumer_group_id = k) :
    kvLookup (persistPhase node st env effs ns).store.kvs k =
      kvLookup st.kvs k := by
  cases hp : (persistPhase node st env effs ns).persisted_rev with
  | none => rw [(persistPhase_none _ _ _ _ _ hp).2.1]
  | some r =>
      rw [(persistPhase_some _ _ _ _ _ _ hp).2.2.2.1]
      simp only [etcdPut]
      rw [kvLookup_kvPut, if_neg hk]

/-- Claim C6: at every Idle iteration whose dead signal fires (and no
interrupt), the computed next state is LostProducer with the same producer id
and the execution id unchanged, and before that transition the loop grants a
10-second lease and writes an empty marker value under the freshly minted
barrier key attached to that lease. -/
theorem c6_idle_dead_signal (node : ConsumerGroupLeaderNode) (st : EtcdStore)
    (env : LoopEnv) (p : ProducerId) (ex : List Nat)
    (hsm : node.state_machine = ConsumerGroupLeaderSM.idle p ex)
    (hrace : env.idleRace = RaceWinner.primary) :
    (leaderLoopStep node st env).next_state =
      some (ConsumerGroupLeaderSM.lostProducer p ex) ∧
    (∃ pre, (leaderLoopStep node st env).effects =
        pre ++ [LoopEffect.leaseGrant 10 env.leaseId,
          LoopEffect.put (EKey.uuid env.freshUuid) (Val.bytes [])
            (some env.leaseId)] ∧
      (pre = [] ∨ pre = [LoopEffect.subscribeDeadSignal p])) ∧
    (kvLookup (leaderLoopStep node st env).store.kvs
        (EKey.uuid env.freshUuid)).map KV.value = some (Val.bytes []) ∧
    (kvLookup (leaderLoopStep node st env).store.kvs
        (EKey.uuid env.freshUuid)).map KV.lease = some (some env.leaseId) := by
  cases hds : node.producer_dead_signal with
  | none =>
      simp only [leaderLoopStep, hsm, hds, hrace]
      refine ⟨(persistPhase_basic _ _ _ _ _).2.1,
        ⟨[LoopEffect.subscribeDeadSignal p],
         (persistPhase_basic _ _ _ _ _).1, Or.inr rfl⟩, ?_, ?_⟩ <;>
        (rw [persistPhase_store_other _ _ _ _ _ _ (fun hh => EKey.noConfusion hh)]
         simp only [etcdPut]
         rw [kvLookup_kvPut, if_pos rfl]
         rfl)
  | some q =>
      simp only [leaderLoopStep, hsm, hds, hrace]
      refine ⟨(persistPhase_basic _ _ _ _ _).2.1,
        ⟨[], (persistPhase_basic _ _ _ _ _).1, Or.inl rfl⟩, ?_, ?_⟩ <;>
        (rw [persistPhase_store_other _ _ _ _ _ _ (fun hh => EKey.noConfusion hh)]
         simp only [etcdPut]
         rw [kvLookup_kvPut, if_pos rfl]
         rfl)

/-- Witness for C6: the concrete Idle iteration computes LostProducer 5 with
execution id unchanged, records the lease grant and marker put, and the store
holds the empty marker under the minted key attached to the lease. -/
theorem c6_witness :
    (leaderLoopStep idleNode sampleStore sampleEnv).next_state =
      some (ConsumerGroupLeaderSM.lostProducer 5 [9]) ∧
    (∃ pre, (leaderLoopStep idleNode sampleStore sampleEnv).effects =
        pre ++ [LoopEffect.leaseGrant 10 42,
          LoopEffect.put (EKey.uuid 7) (Val.bytes []) (some 42)] ∧
      (pre = [] ∨ pre = [LoopEffect.subscribeDeadSignal 5])) ∧
    (kvLookup (leaderLoopStep idleNode sampleStore sampleEnv).store.kvs
        (EKey.uuid 7)).map KV.value = some (Val.bytes []) ∧
    (kvLookup (leaderLoopStep idleNode sampleStore sampleEnv).store.kvs
        (EKey.uuid 7)).map KV.lease = some (some 42) :=
  c6_idle_dead_signal idleNode sampleStore sampleEnv 5 [9] (by decide)
    (by decide)

/-- Claim C7: get_producer_dead_signal creates the prefix watch strictly
before the existence check (effect order), and when the liveness key is absent
at subscribe time the returned signal is already resolved, firing once without
consuming any watch event. -/
theorem c7_watch_before_get (st : EtcdStore) (p : ProducerId) :
    (get_producer_dead_signal st p).1 =
      [SigEffect.watchCreate (EKey.producerLock p) true,
       SigEffect.getKey (EKey.producerLock p)] ∧
    (kvLookup st.kvs (EKey.producerLock p) = none →
      (get_producer_dead_signal st p).2 = SignalMode.earlyResolved ∧
      ∀ evs, signalRun (get_producer_dead_signal st p).2 evs =
        ⟨1, 0, WatchOutcome.resolved⟩) := by
  cases hl : kvLookup st.kvs (EKey.producerLock p) <;>
    simp [get_producer_dead_signal, hl, signalRun]

/-- Store with no producer-lock key, for the C7 witness. -/
def emptyStore : EtcdStore := ⟨0, []⟩

/-- Witness for C7: subscribing over the empty store resolves on the fast
path, consuming no event even when events would later arrive. -/
theorem c7_witness :
    kvLookup emptyStore.kvs (EKey.producerLock 5) = none ∧
    (get_producer_dead_signal emptyStore 5).2 = SignalMode.earlyResolved ∧
    signalRun (get_producer_dead_signal emptyStore 5).2 [EventTy.put] =
      ⟨1, 0, WatchOutcome.resolved⟩ :=
  ⟨by decide, ((c7_watch_before_get emptyStore 5).2 (by decide)).1,
   ((c7_watch_before_get emptyStore 5).2 (by decide)).2 [EventTy.put]⟩

/-- Claim C8: a subscribed signal whose liveness key existed at subscribe time
watches the stream; it sends at most once, resolves exactly when the first
event is the deletion, resolving then with a single send after consuming only
that event, and a put event observed while the producer is presumed dead is
the fatal corruption outcome with no send at all. -/
theorem c8_delete_resolves_once (st : EtcdStore) (p : ProducerId)
    (h : kvLookup st.kvs (EKey.producerLock p) ≠ none) :
    (get_producer_dead_signal st p).2 = SignalMode.watching ∧
    ∀ evs : List EventTy,
      (signalRun SignalMode.watching evs).sends ≤ 1 ∧
      ((signalRun SignalMode.watching evs).outcome = WatchOutcome.resolved ↔
        evs.head? = some EventTy.delete) ∧
      (evs.head? = some EventTy.delete →
        signalRun SignalMode.watching evs = ⟨1, 1, WatchOutcome.resolved⟩) ∧
      (evs.head? = some EventTy.put →
        signalRun SignalMode.watching evs = ⟨0, 1, WatchOutcome.corrupted⟩) := by
  constructor
  · cases hl : kvLookup st.kvs (EKey.producerLock p) with
    | none => exact absurd hl h
    | some kv => simp [get_producer_dead_signal, hl]
  · intro evs
    cases evs with
    | nil => simp [signalRun]
    | cons e rest => cases e <;> simp [signalRun]

/-- Store where producer 5 still holds its liveness key, for the C8 witness. -/
def presentStore : EtcdStore :=
  ⟨1, [(EKey.producerLock 5, ⟨Val.bytes [1], 1, 1, none⟩)]⟩

/-- Witness for C8: with the liveness key present, the signal watches; a
leading deletion event resolves it with one send, and a leading put event is
the corruption outcome. -/
theorem c8_witness :
    kvLookup presentStore.kvs (EKey.producerLock 5) ≠ none ∧
    (get_producer_dead_signal presentStore 5).2 = SignalMode.watching ∧
    signalRun SignalMode.watching [EventTy.delete, EventTy.delete] =
      ⟨1, 1, WatchOutcome.resolved⟩ ∧
    signalRun SignalMode.watching [EventTy.put] =
      ⟨0, 1, WatchOutcome.corrupted⟩ :=
  ⟨by decide, (c8_delete_resolves_once presentStore 5 (by decide)).1,
   ((c8_delete_resolves_once presentStore 5 (by decide)).2
     [EventTy.delete, EventTy.delete]).2.2.1 rfl,
   ((c8_delete_resolves_once presentStore 5 (by decide)).2
     [EventTy.put]).2.2.2 rfl⟩

/-- Claim C9: at every LostProducer iteration the loop grants a 10-second
lease, lists the keys under the group's instance-lock prefix as wait_for,
creates a barrier over exactly that set bound to the new lease under the
freshly minted barrier key, caches the barrier handle, and computes the next
state WaitingBarrier carrying the frozen wait_for snapshot. -/
theorem c9_lost_producer_barrier (node : ConsumerGroupLeaderNode)
    (st : EtcdStore) (env : LoopEnv) (lp : ProducerId) (ex : List Nat)
    (hsm : node.state_machine = ConsumerGroupLeaderSM.lostProducer lp ex) :
    (leaderLoopStep node st env).effects =
      [LoopEffect.leaseGrant 10 env.leaseId,
       LoopEffect.scanLocks node.consumer_group_id,
       LoopEffect.newBarrier (EKey.uuid env.freshUuid)
         (instanceLockKeys st node.consumer_group_id) env.leaseId] ∧
    (leaderLoopStep node st env).node.barrier =
      some (EKey.uuid env.freshUuid) ∧
    (leaderLoopStep node st env).next_state =
      some (ConsumerGroupLeaderSM.waitingBarrier env.leaseId
        (EKey.uuid env.freshUuid)
        (instanceLockKeys st node.consumer_group_id)) := by
  simp only [leaderLoopStep, hsm]
  exact ⟨(persistPhase_basic _ _ _ _ _).1,
    (persistPhase_basic _ _ _ _ _).2.2.2.1,
    (persistPhase_basic _ _ _ _ _).2.1⟩

/-- Runtime that has just lost producer 5, for the C9 witness. -/
def lostNode : ConsumerGroupLeaderNode :=
  ⟨0, EKey.raw 0, ConsumerGroupLeaderSM.lostProducer 5 [9], 2, none, none⟩

/-- Store holding one instance lock of group 0, for the C9 witness. -/
def lockStore : EtcdStore :=
  ⟨2, [(EKey.raw 0, ⟨Val.bytes [], 1, 1, none⟩),
       (EKey.leaderLog 0, ⟨Val.state ConsumerGroupLeaderSM.init, 1, 1, none⟩),
       (EKey.instanceLock 0 1, ⟨Val.bytes [], 1, 2, none⟩)]⟩

/-- Witness for C9 at the concrete lost-producer runtime over lockStore. -/
theorem c9_witness :
    (leaderLoopStep lostNode lockStore sampleEnv).effects =
      [LoopEffect.leaseGrant 10 42,
       LoopEffect.scanLocks 0,
       LoopEffect.newBarrier (EKey.uuid 7)
         (instanceLockKeys lockStore 0) 42] ∧
    (leaderLoopStep lostNode lockStore sampleEnv).node.barrier =
      some (EKey.uuid 7) ∧
    (leaderLoopStep lostNode lockStore sampleEnv).next_state =
      some (ConsumerGroupLeaderSM.waitingBarrier 42 (EKey.uuid 7)
        (instanceLockKeys lockStore 0)) :=
  c9_lost_producer_barrier lostNode lockStore sampleEnv 5 [9] (by decide)

/-- Claim C10: a closed interrupt channel is treated exactly like a signalled
one and never reported as an error: the WaitingBarrier and Idle selects exit
Ok(()) without touching the store when the closed channel completes first, and
when the post-persist non-blocking drain observes the closed channel the
iteration exits Ok(()) after its successful persist. -/
theorem c10_closed_interrupt (node : ConsumerGroupLeaderNode)
    (st : EtcdStore) (env : LoopEnv) :
    (∀ lid bk wf,
      node.state_machine = ConsumerGroupLeaderSM.waitingBarrier lid bk wf →
      env.barrierRace = RaceWinner.closed →
      (leaderLoopStep node st env).result = StepResult.exitOk ∧
      (leaderLoopStep node st env).store = st) ∧
    (∀ p ex, node.state_machine = ConsumerGroupLeaderSM.idle p ex →
      env.idleRace = RaceWinner.closed →
      (leaderLoopStep node st env).result = StepResult.exitOk ∧
      (leaderLoopStep node st env).store = st) ∧
    (env.drain = DrainResult.closed →
      ∀ r, (leaderLoopStep node st env).persisted_rev = some r →
        (leaderLoopStep node st env).result = StepResult.exitOk) := by
  refine ⟨?_, ?_, ?_⟩
  · intro lid bk wf hsm hrace
    cases hb : node.barrier <;> simp [leaderLoopStep, hsm, hb, hrace]
  · intro p ex hsm hrace
    cases hds : node.producer_dead_signal <;>
      simp [leaderLoopStep, hsm, hds, hrace]
  · intro hd r hr
    exact leaderLoopStep_drain node st env r (by simp [hd]) hr

/-- Environment where the closed interrupt channel completes every select and
the drain observes the closed channel. -/
def closedEnv : LoopEnv :=
  ⟨9, 43, RaceWinner.closed, RaceWinner.closed, DrainResult.closed⟩

/-- Environment whose selects are won by the primary futures while the drain
observes the closed channel. -/
def closedDrainEnv : LoopEnv :=
  ⟨7, 42, RaceWinner.primary, RaceWinner.primary, DrainResult.closed⟩

/-- Witness for C10 at concrete runtimes: closed-channel select exits Ok in
WaitingBarrier and Idle without store writes, and a closed drain after a
successful persist exits Ok. -/
theorem c10_witness :
    ((leaderLoopStep waitingNode waitingStore closedEnv).result =
        StepResult.exitOk ∧
      (leaderLoopStep waitingNode waitingStore closedEnv).store =
        waitingStore) ∧
    ((leaderLoopStep idleNode sampleStore closedEnv).result =
        StepResult.exitOk ∧
      (leaderLoopStep idleNode sampleStore closedEnv).store = sampleStore) ∧
    (leaderLoopStep sampleNode sampleStore closedDrainEnv).result =
      StepResult.exitOk :=
  ⟨(c10_closed_interrupt waitingNode waitingStore closedEnv).1 42
     (EKey.uuid 7) [EKey.instanceLock 0 1] (by decide) (by decide),
   (c10_closed_interrupt idleNode sampleStore closedEnv).2.1 5 [9]
     (by decide) (by decide),
   (c10_closed_interrupt sampleNode sampleStore closedDrainEnv).2.2
     (by decide) 3 (by decide)⟩
